import Mathlib

/-!
Shallow embedding of the fallible-streaming-iterator library (src/src/lib.rs).

An iterator is modelled as a state type together with two operations:
advance (which may mutate state and fail) and get (a pure projection of the
current element).  Rust's `fn advance(&mut self) -> Result<(), E>` becomes a
function from a state to a `Step`: the successor state plus an optional
error (an erroring advance still produces a mutated state).  Loops inside
the library recurse on a fuel parameter; a result of `none` means the fuel
ran out, which on every concrete run below only happens when the Rust code
genuinely fails to terminate.
-/

namespace FallibleStreaming

/-- Result of one advance call: the new state, successful or carrying an error. -/
inductive Step (σ ε : Type) where
  | ok : σ → Step σ ε
  | err : σ → ε → Step σ ε
deriving Repr, DecidableEq

/-- The state reached by a step, whether it succeeded or errored. -/
def Step.state : Step σ ε → σ
  | .ok s => s
  | .err s _ => s

/-- The trait: advance (fuelled, may diverge, may error) and get (pure). -/
structure FallibleStreamingIterator (σ α ε : Type) where
  advance : Nat → σ → Option (Step σ ε)
  get : σ → Option α

namespace FallibleStreamingIterator

variable {σ α β ε : Type}

/-- Default `next`: advance, then get (lib.rs lines 45-48). -/
def next (it : FallibleStreamingIterator σ α ε) (fuel : Nat) (s : σ) :
    Option (σ × Except ε (Option α)) :=
  match it.advance fuel s with
  | none => none
  | some (.ok s') => some (s', .ok (it.get s'))
  | some (.err s' e) => some (s', .error e)

/-- Trait method `all` (lib.rs lines 58-68): while let Some(e) = next, if not f e return false. -/
def all (it : FallibleStreamingIterator σ α ε) (f : α → Bool) :
    Nat → σ → Option (σ × Except ε Bool)
  | 0, _ => none
  | fuel + 1, s =>
    match it.next fuel s with
    | none => none
    | some (s', .error e) => some (s', .error e)
    | some (s', .ok none) => some (s', .ok true)
    | some (s', .ok (some v)) =>
      if f v then all it f fuel s' else some (s', .ok false)

/-- Trait method `any` (lib.rs lines 72-77): self.all(|e| !f(e)).map(|r| !r). -/
def any (it : FallibleStreamingIterator σ α ε) (f : α → Bool)
    (fuel : Nat) (s : σ) : Option (σ × Except ε Bool) :=
  (it.all (fun e => !f e) fuel s).map (fun p => (p.1, p.2.map (fun r => !r)))

/-- Trait method `count` (lib.rs lines 92-100), with the running count explicit. -/
def count (it : FallibleStreamingIterator σ α ε) :
    Nat → σ → Nat → Option (σ × Except ε Nat)
  | 0, _, _ => none
  | fuel + 1, s, acc =>
    match it.next fuel s with
    | none => none
    | some (s', .error e) => some (s', .error e)
    | some (s', .ok none) => some (s', .ok acc)
    | some (s', .ok (some _)) => count it fuel s' (acc + 1)

/-- Trait method `find` (lib.rs lines 116-132): loop advance; stop on a match or
on exhaustion; afterwards return the re-fetched current element. -/
def find (it : FallibleStreamingIterator σ α ε) (f : α → Bool) :
    Nat → σ → Option (σ × Except ε (Option α))
  | 0, _ => none
  | fuel + 1, s =>
    match it.advance fuel s with
    | none => none
    | some (.err s' e) => some (s', .error e)
    | some (.ok s') =>
      match it.get s' with
      | some v => if f v then some (s', .ok (it.get s')) else find it f fuel s'
      | none => some (s', .ok (it.get s'))

/-- Drive an iterator with `next` until exhaustion or error, collecting the
elements seen: the observable sequence of the iterator. -/
def drain (it : FallibleStreamingIterator σ α ε) :
    Nat → σ → Option (List α × Except ε Unit)
  | 0, _ => none
  | fuel + 1, s =>
    match it.next fuel s with
    | none => none
    | some (_, .error e) => some ([], .error e)
    | some (_, .ok none) => some ([], .ok ())
    | some (s', .ok (some v)) =>
      match drain it fuel s' with
      | none => none
      | some (l, r) => some (v :: l, r)

end FallibleStreamingIterator

deriving instance DecidableEq for Except

/-- A concrete source backed by a script of pulls: each scripted pull yields an
element or an error; past the end of the script the source is exhausted.
`cur` is the element observable through get. -/
structure ListState (α ε : Type) where
  items : List (Except ε α)
  cur : Option α
deriving Repr, DecidableEq

/-- One advance of the scripted source: an ok item becomes the current element,
an error item surfaces its error and leaves the current element in place,
an empty script clears the current element (exhaustion). -/
def ListState.step : ListState α ε → Step (ListState α ε) ε
  | ⟨[], _⟩ => .ok ⟨[], none⟩
  | ⟨.ok a :: rest, _⟩ => .ok ⟨rest, some a⟩
  | ⟨.error e :: rest, c⟩ => .err ⟨rest, c⟩ e

/-- The scripted source as an iterator. -/
def listSource (α ε : Type) : FallibleStreamingIterator (ListState α ε) α ε :=
  ⟨fun _ s => some s.step, ListState.cur⟩

/-- A fresh, not-yet-advanced source over a pure (error-free) list. -/
def pureSource (l : List α) : ListState α ε := ⟨l.map Except.ok, none⟩

open FallibleStreamingIterator

/-- Filter advance (lib.rs lines 292-299): pull from the source via next until
the predicate accepts an element, the source exhausts, or an error occurs. -/
def Filter.advance (it : FallibleStreamingIterator σ α ε) (f : α → Bool) :
    Nat → σ → Option (Step σ ε)
  | 0, _ => none
  | fuel + 1, s =>
    match it.next fuel s with
    | none => none
    | some (s', .error e) => some (.err s' e)
    | some (s', .ok none) => some (.ok s')
    | some (s', .ok (some v)) =>
      if f v then some (.ok s') else Filter.advance it f fuel s'

/-- The Filter adaptor (lib.rs lines 284-310): its state is the source state,
its get forwards the source's get. -/
def Filter.iter (it : FallibleStreamingIterator σ α ε) (f : α → Bool) :
    FallibleStreamingIterator σ α ε :=
  ⟨Filter.advance it f, it.get⟩

/-- State of Map (lib.rs lines 410-415): source state plus the buffered value. -/
structure Map (σ β : Type) where
  it : σ
  value : Option β
deriving Repr, DecidableEq

/-- Map advance (lib.rs lines 425-428): value = it.next()?.map(f).  On a source
error the early return leaves the buffered value untouched. -/
def Map.advance (it : FallibleStreamingIterator σ α ε) (f : α → β)
    (fuel : Nat) : Map σ β → Option (Step (Map σ β) ε)
  | ⟨s, v⟩ =>
    match it.next fuel s with
    | none => none
    | some (s', .error e) => some (.err ⟨s', v⟩ e)
    | some (s', .ok ov) => some (.ok ⟨s', ov.map f⟩)

/-- The Map adaptor (lib.rs lines 417-439): get returns the buffered value. -/
def Map.iter (it : FallibleStreamingIterator σ α ε) (f : α → β) :
    FallibleStreamingIterator (Map σ β) β ε :=
  ⟨Map.advance it f, Map.value⟩

/-- State of Take (lib.rs lines 547-551): source state, remaining count, done flag. -/
structure Take (σ : Type) where
  it : σ
  n : Nat
  done : Bool
deriving Repr, DecidableEq

/-- Take advance (lib.rs lines 560-568): while n is nonzero advance the source
and decrement (an error returns early, leaving n and done untouched); once n
is zero set done without touching the source. -/
def Take.advance (it : FallibleStreamingIterator σ α ε)
    (fuel : Nat) : Take σ → Option (Step (Take σ) ε)
  | ⟨s, n, d⟩ =>
    if n ≠ 0 then
      match it.advance fuel s with
      | none => none
      | some (.err s' e) => some (.err ⟨s', n, d⟩ e)
      | some (.ok s') => some (.ok ⟨s', n - 1, d⟩)
    else
      some (.ok ⟨s, n, true⟩)

/-- Take get (lib.rs lines 571-573): if self.done { self.it.get() } else { None }. -/
def Take.get (it : FallibleStreamingIterator σ α ε) : Take σ → Option α
  | ⟨s, _, d⟩ => if d then it.get s else none

/-- The Take adaptor (lib.rs lines 553-584). -/
def Take.iter (it : FallibleStreamingIterator σ α ε) :
    FallibleStreamingIterator (Take σ) α ε :=
  ⟨Take.advance it, Take.get it⟩

/-- State of Skip (lib.rs lines 471-474): source state plus remaining skip count. -/
structure Skip (σ : Type) where
  it : σ
  n : Nat
deriving Repr, DecidableEq

/-- Result of the for-loop in Skip advance (lib.rs lines 484-488): the source
exhausted early, a pull errored, or all n pulls produced elements. -/
inductive SkipLoopResult (σ ε : Type) where
  | early : σ → SkipLoopResult σ ε
  | failed : σ → ε → SkipLoopResult σ ε
  | through : σ → SkipLoopResult σ ε
deriving Repr, DecidableEq

/-- The for-loop of Skip advance: k pulls from the source via next. -/
def Skip.loop (it : FallibleStreamingIterator σ α ε) (fuel : Nat) :
    Nat → σ → Option (SkipLoopResult σ ε)
  | 0, s => some (.through s)
  | k + 1, s =>
    match it.next fuel s with
    | none => none
    | some (s', .error e) => some (.failed s' e)
    | some (s', .ok none) => some (.early s')
    | some (s', .ok (some _)) => Skip.loop it fuel k s'

/-- Skip advance (lib.rs lines 483-491): run the for-loop; on early exhaustion
or error return with n unchanged; otherwise set n to 0 and call advance on
SELF again (line 490 reads self.advance(), not self.it.advance()), which with
n = 0 immediately recurses again: the fuel running out models that infinite
recursion. -/
def Skip.advance (it : FallibleStreamingIterator σ α ε) :
    Nat → Skip σ → Option (Step (Skip σ) ε)
  | 0, _ => none
  | fuel + 1, ⟨s, n⟩ =>
    match Skip.loop it fuel n s with
    | none => none
    | some (.early s') => some (.ok ⟨s', n⟩)
    | some (.failed s' e) => some (.err ⟨s', n⟩ e)
    | some (.through s') => Skip.advance it fuel ⟨s', 0⟩

/-- The Skip adaptor (lib.rs lines 476-503): get forwards the source's get. -/
def Skip.iter (it : FallibleStreamingIterator σ α ε) :
    FallibleStreamingIterator (Skip σ) α ε :=
  ⟨Skip.advance it, fun st => it.get st.it⟩

/-- State of TakeWhile (lib.rs lines 587-591): source state plus done flag. -/
structure TakeWhile (σ : Type) where
  it : σ
  done : Bool
deriving Repr, DecidableEq

/-- TakeWhile advance (lib.rs lines 601-608): always pull the source via next;
if the new element fails the predicate, set done. -/
def TakeWhile.advance (it : FallibleStreamingIterator σ α ε) (f : α → Bool)
    (fuel : Nat) : TakeWhile σ → Option (Step (TakeWhile σ) ε)
  | ⟨s, d⟩ =>
    match it.next fuel s with
    | none => none
    | some (s', .error e) => some (.err ⟨s', d⟩ e)
    | some (s', .ok none) => some (.ok ⟨s', d⟩)
    | some (s', .ok (some v)) => some (.ok ⟨s', if f v then d else true⟩)

/-- TakeWhile get (lib.rs lines 611-613): nothing once done, else the source's get. -/
def TakeWhile.get (it : FallibleStreamingIterator σ α ε) : TakeWhile σ → Option α
  | ⟨s, d⟩ => if d then none else it.get s

/-- The TakeWhile adaptor (lib.rs lines 593-623). -/
def TakeWhile.iter (it : FallibleStreamingIterator σ α ε) (f : α → Bool) :
    FallibleStreamingIterator (TakeWhile σ) α ε :=
  ⟨TakeWhile.advance it f, TakeWhile.get it⟩

/-- The tri-state marker of Fuse (lib.rs lines 312-317); `stop` models End. -/
inductive FuseState where
  | start
  | middle
  | stop
deriving Repr, DecidableEq

/-- State of Fuse (lib.rs lines 320-323): source state plus the marker. -/
structure Fuse (σ : Type) where
  it : σ
  state : FuseState
deriving Repr, DecidableEq

/-- Fuse advance (lib.rs lines 332-357). -/
def Fuse.advance (it : FallibleStreamingIterator σ α ε)
    (fuel : Nat) : Fuse σ → Option (Step (Fuse σ) ε)
  | ⟨s, .start⟩ =>
    match it.next fuel s with
    | none => none
    | some (s', .ok (some _)) => some (.ok ⟨s', .middle⟩)
    | some (s', .ok none) => some (.ok ⟨s', .stop⟩)
    | some (s', .error e) => some (.err ⟨s', .stop⟩ e)
  | ⟨s, .middle⟩ =>
    match it.next fuel s with
    | none => none
    | some (s', .ok (some _)) => some (.ok ⟨s', .middle⟩)
    | some (s', .ok none) => some (.ok ⟨s', .stop⟩)
    | some (s', .error e) => some (.err ⟨s', .stop⟩ e)
  | ⟨s, .stop⟩ => some (.ok ⟨s, .stop⟩)

/-- Fuse get (lib.rs lines 360-365): the source's element only in Middle. -/
def Fuse.get (it : FallibleStreamingIterator σ α ε) : Fuse σ → Option α
  | ⟨s, .middle⟩ => it.get s
  | ⟨_, .start⟩ => none
  | ⟨_, .stop⟩ => none

/-- Fuse overrides next (lib.rs lines 373-406): in End it returns no element
without touching the source; elsewhere it pulls once and moves the marker. -/
def Fuse.next (it : FallibleStreamingIterator σ α ε)
    (fuel : Nat) : Fuse σ → Option (Fuse σ × Except ε (Option α))
  | ⟨s, .start⟩ =>
    match it.next fuel s with
    | none => none
    | some (s', .ok (some v)) => some (⟨s', .middle⟩, .ok (some v))
    | some (s', .ok none) => some (⟨s', .stop⟩, .ok none)
    | some (s', .error e) => some (⟨s', .stop⟩, .error e)
  | ⟨s, .middle⟩ =>
    match it.next fuel s with
    | none => none
    | some (s', .ok (some v)) => some (⟨s', .middle⟩, .ok (some v))
    | some (s', .ok none) => some (⟨s', .stop⟩, .ok none)
    | some (s', .error e) => some (⟨s', .stop⟩, .error e)
  | ⟨s, .stop⟩ => some (⟨s, .stop⟩, .ok none)

/-- The Fuse adaptor (lib.rs lines 325-407). -/
def Fuse.iter (it : FallibleStreamingIterator σ α ε) :
    FallibleStreamingIterator (Fuse σ) α ε :=
  ⟨Fuse.advance it, Fuse.get it⟩

/-! ## Claim theorems -/

/-- Claim C4: Take's get returns the wrapped source's current element exactly
when the done flag is set, and returns nothing while the done flag is unset,
regardless of the source's current element. -/
theorem take_get_gated_on_done :
    ∀ (σ α ε : Type) (it : FallibleStreamingIterator σ α ε) (st : Take σ),
      (st.done = true → Take.get it st = it.get st.it) ∧
      (st.done = false → Take.get it st = none) := by
  intro σ α ε it st
  obtain ⟨s, n, d⟩ := st
  cases d <;> simp [Take.get]

/-- Concrete instance of C4 with both flag values. -/
theorem take_get_gated_on_done_witness :
    Take.get (listSource Nat Nat) ⟨⟨[], some 5⟩, 0, true⟩ =
      (listSource Nat Nat).get ⟨[], some 5⟩ ∧
    Take.get (listSource Nat Nat) ⟨⟨[], some 5⟩, 0, false⟩ = none :=
  ⟨(take_get_gated_on_done _ _ _ (listSource Nat Nat) ⟨⟨[], some 5⟩, 0, true⟩).1 rfl,
   (take_get_gated_on_done _ _ _ (listSource Nat Nat) ⟨⟨[], some 5⟩, 0, false⟩).2 rfl⟩

/-- Claim C8: when the wrapped source's next errors during Map's advance, the
error is propagated, the buffered value field is left unchanged, and get on
the Map returns exactly what it returned before the failed advance. -/
theorem map_error_keeps_value :
    ∀ (σ α β ε : Type) (it : FallibleStreamingIterator σ α ε) (f : α → β)
      (fuel : Nat) (s : σ) (v : Option β) (s' : σ) (e : ε),
      it.next fuel s = some (s', Except.error e) →
      Map.advance it f fuel ⟨s, v⟩ = some (.err ⟨s', v⟩ e) ∧
      Map.value (⟨s', v⟩ : Map σ β) = Map.value (⟨s, v⟩ : Map σ β) := by
  intro σ α β ε it f fuel s v s' e h
  exact ⟨by simp [Map.advance, h], rfl⟩

/-- Concrete instance of C8: a source that errors at once, buffer holding 9. -/
theorem map_error_keeps_value_witness :
    Map.advance (listSource Nat Nat) (fun x => x + 1) 4 ⟨⟨[Except.error 3], none⟩, some 9⟩ =
      some (.err ⟨⟨[], none⟩, some 9⟩ 3) ∧
    Map.value (⟨⟨[], none⟩, some 9⟩ : Map (ListState Nat Nat) Nat) =
      Map.value (⟨⟨[Except.error 3], none⟩, some 9⟩ : Map (ListState Nat Nat) Nat) :=
  map_error_keeps_value _ _ _ _ (listSource Nat Nat) (fun x => x + 1) 4
    ⟨[Except.error 3], none⟩ (some 9) ⟨[], none⟩ 3 rfl

/-- Claim C9: a TakeWhile whose done flag is set still pulls the wrapped source
on every advance — the source state moves to wherever its next call leads,
and a source error is propagated — while TakeWhile's get returns nothing. -/
theorem takewhile_done_still_pulls :
    ∀ (σ α ε : Type) (it : FallibleStreamingIterator σ α ε) (f : α → Bool)
      (fuel : Nat) (s : σ),
      TakeWhile.get it (⟨s, true⟩ : TakeWhile σ) = none ∧
      (∀ (s' : σ) (e : ε), it.next fuel s = some (s', Except.error e) →
        TakeWhile.advance it f fuel ⟨s, true⟩ = some (.err ⟨s', true⟩ e)) ∧
      (∀ (s' : σ) (ov : Option α), it.next fuel s = some (s', Except.ok ov) →
        TakeWhile.advance it f fuel ⟨s, true⟩ = some (.ok ⟨s', true⟩)) := by
  intro σ α ε it f fuel s
  refine ⟨by simp [TakeWhile.get], ?_, ?_⟩
  · intro s' e h
    simp [TakeWhile.advance, h]
  · intro s' ov h
    cases ov <;> simp [TakeWhile.advance, h]

/-- Concrete instance of C9: element and error pulls from a done TakeWhile. -/
theorem takewhile_done_still_pulls_witness :
    TakeWhile.get (listSource Nat Nat) ⟨⟨[Except.ok 4], none⟩, true⟩ = none ∧
    TakeWhile.advance (listSource Nat Nat) (fun _ => false) 2 ⟨⟨[Except.ok 4], none⟩, true⟩ =
      some (.ok ⟨⟨[], some 4⟩, true⟩) ∧
    TakeWhile.advance (listSource Nat Nat) (fun _ => false) 2 ⟨⟨[Except.error 8], none⟩, true⟩ =
      some (.err ⟨⟨[], none⟩, true⟩ 8) :=
  ⟨(takewhile_done_still_pulls _ _ _ (listSource Nat Nat) (fun _ => false) 2
      ⟨[Except.ok 4], none⟩).1,
   (takewhile_done_still_pulls _ _ _ (listSource Nat Nat) (fun _ => false) 2
      ⟨[Except.ok 4], none⟩).2.2 ⟨[], some 4⟩ (some 4) rfl,
   (takewhile_done_still_pulls _ _ _ (listSource Nat Nat) (fun _ => false) 2
      ⟨[Except.error 8], none⟩).2.1 ⟨[], none⟩ 8 rfl⟩

/-- Claim C10: once Take's remaining count is 0, every advance succeeds without
touching the wrapped source, leaves the source state unchanged, keeps the
count at 0 and sets the done flag; and a set done flag never reverts under
any later advance. -/
theorem take_done_sticky :
    ∀ (σ α ε : Type) (it : FallibleStreamingIterator σ α ε) (fuel : Nat),
      (∀ (s : σ) (d : Bool), Take.advance it fuel ⟨s, 0, d⟩ = some (.ok ⟨s, 0, true⟩)) ∧
      (∀ (st : Take σ) (r : Step (Take σ) ε), st.done = true →
        Take.advance it fuel st = some r → (Step.state r).done = true) := by
  intro σ α ε it fuel
  constructor
  · intro s d
    simp [Take.advance]
  · intro st r hd h
    obtain ⟨s, n, d⟩ := st
    simp only at hd
    subst hd
    cases n with
    | zero =>
      simp [Take.advance] at h
      simp [← h, Step.state]
    | succ m =>
      simp only [Take.advance] at h
      rcases ha : it.advance fuel s with _ | st2
      · rw [ha] at h
        simp at h
      · rw [ha] at h
        cases st2 with
        | ok s' =>
          simp at h
          simp [← h, Step.state]
        | err s' e =>
          simp at h
          simp [← h, Step.state]

/-- Concrete instance of C10: an advance at count 0, and done preserved
through an advance that still had count left. -/
theorem take_done_sticky_witness :
    Take.advance (listSource Nat Nat) 3 ⟨⟨[], none⟩, 0, false⟩ =
      some (.ok ⟨⟨[], none⟩, 0, true⟩) ∧
    (Step.state (.ok ⟨⟨[], some 1⟩, 4, true⟩ : Step (Take (ListState Nat Nat)) Nat)).done = true :=
  ⟨(take_done_sticky _ _ _ (listSource Nat Nat) 3).1 ⟨[], none⟩ false,
   (take_done_sticky _ _ _ (listSource Nat Nat) 3).2 ⟨⟨[Except.ok 1], none⟩, 5, true⟩
     (.ok ⟨⟨[], some 1⟩, 4, true⟩) rfl rfl⟩

/-- Claim C3 counterexample: over the source scripted [ok 1, ok 2, error 7],
after draining two elements through Fuse's next, the third next call reaches
the source's error pull and returns that error — not "no element" as the
claim states. -/
theorem fuse_third_pull_error_cex :
    Fuse.next (listSource Nat Nat) 9 ⟨⟨[Except.ok 1, Except.ok 2, Except.error 7], none⟩, .start⟩ =
      some (⟨⟨[Except.ok 2, Except.error 7], some 1⟩, .middle⟩, .ok (some 1)) ∧
    Fuse.next (listSource Nat Nat) 9 ⟨⟨[Except.ok 2, Except.error 7], some 1⟩, .middle⟩ =
      some (⟨⟨[Except.error 7], some 2⟩, .middle⟩, .ok (some 2)) ∧
    Fuse.next (listSource Nat Nat) 9 ⟨⟨[Except.error 7], some 2⟩, .middle⟩ =
      some (⟨⟨[], some 2⟩, .stop⟩, .error 7) ∧
    (Except.error 7 : Except Nat (Option Nat)) ≠ Except.ok none :=
  ⟨rfl, rfl, rfl, fun h => Except.noConfusion h⟩

/-- Claim C3 (amended): whenever Fuse's next returns no element or an error,
the marker is End afterwards; from End, next returns no element with the
source state untouched; and in the [ok 1, ok 2, error 7] run, the first two
next calls yield 1 and 2, the third surfaces the error (entering End), and
the fourth returns no element without moving the source. -/
theorem fuse_end_sticky :
    (∀ (σ α ε : Type) (it : FallibleStreamingIterator σ α ε) (fuel : Nat)
        (s : σ) (st : FuseState) (fs : Fuse σ) (r : Except ε (Option α)),
      Fuse.next it fuel ⟨s, st⟩ = some (fs, r) →
      r = Except.ok none ∨ (∃ e, r = Except.error e) →
      fs.state = FuseState.stop) ∧
    (∀ (σ α ε : Type) (it : FallibleStreamingIterator σ α ε) (fuel : Nat) (s : σ),
      Fuse.next it fuel ⟨s, FuseState.stop⟩ = some (⟨s, FuseState.stop⟩, Except.ok none)) ∧
    (∀ fuel : Nat,
      Fuse.next (listSource Nat Nat) fuel ⟨⟨[Except.ok 1, Except.ok 2, Except.error 7], none⟩, .start⟩ =
        some (⟨⟨[Except.ok 2, Except.error 7], some 1⟩, .middle⟩, .ok (some 1)) ∧
      Fuse.next (listSource Nat Nat) fuel ⟨⟨[Except.ok 2, Except.error 7], some 1⟩, .middle⟩ =
        some (⟨⟨[Except.error 7], some 2⟩, .middle⟩, .ok (some 2)) ∧
      Fuse.next (listSource Nat Nat) fuel ⟨⟨[Except.error 7], some 2⟩, .middle⟩ =
        some (⟨⟨[], some 2⟩, .stop⟩, .error 7) ∧
      Fuse.next (listSource Nat Nat) fuel ⟨⟨[], some 2⟩, .stop⟩ =
        some (⟨⟨[], some 2⟩, .stop⟩, .ok none)) := by
  refine ⟨?_, ?_, fun fuel => ⟨rfl, rfl, rfl, rfl⟩⟩
  · intro σ α ε it fuel s st fs r h hr
    cases st with
    | start =>
      rcases hn : it.next fuel s with _ | ⟨s1, r1⟩
      · simp [Fuse.next, hn] at h
      · rcases r1 with e | ov
        · simp [Fuse.next, hn] at h
          simp [← h.1]
        · rcases ov with _ | v
          · simp [Fuse.next, hn] at h
            simp [← h.1]
          · simp [Fuse.next, hn] at h
            rcases hr with hr | ⟨e, hr⟩ <;> rw [← h.2] at hr <;> simp at hr
    | middle =>
      rcases hn : it.next fuel s with _ | ⟨s1, r1⟩
      · simp [Fuse.next, hn] at h
      · rcases r1 with e | ov
        · simp [Fuse.next, hn] at h
          simp [← h.1]
        · rcases ov with _ | v
          · simp [Fuse.next, hn] at h
            simp [← h.1]
          · simp [Fuse.next, hn] at h
            rcases hr with hr | ⟨e, hr⟩ <;> rw [← h.2] at hr <;> simp at hr
    | stop =>
      simp [Fuse.next] at h
      simp [← h.1]
  · intro σ α ε it fuel s
    rfl

/-- Concrete instance of C3's generic parts: the hypotheses discharged on an
immediately-exhausted source and on an End-state fuse. -/
theorem fuse_end_sticky_witness :
    (⟨⟨[], none⟩, FuseState.stop⟩ : Fuse (ListState Nat Nat)).state = FuseState.stop ∧
    Fuse.next (listSource Nat Nat) 4 ⟨⟨[], some 2⟩, FuseState.stop⟩ =
      some (⟨⟨[], some 2⟩, FuseState.stop⟩, Except.ok none) :=
  ⟨fuse_end_sticky.1 (ListState Nat Nat) Nat Nat (listSource Nat Nat) 4 ⟨[], none⟩
      FuseState.start ⟨⟨[], none⟩, FuseState.stop⟩ (Except.ok none) rfl (Or.inl rfl),
   fuse_end_sticky.2.1 (ListState Nat Nat) Nat Nat (listSource Nat Nat) 4 ⟨[], some 2⟩⟩

/-- Whatever find returns on success is the current element of the final state:
the loop breaks and the element is re-fetched through get. -/
theorem find_returns_get (σ α ε : Type) (it : FallibleStreamingIterator σ α ε)
    (f : α → Bool) :
    ∀ (fuel : Nat) (s s' : σ) (r : Option α),
      find it f fuel s = some (s', Except.ok r) → r = it.get s' := by
  intro fuel
  induction fuel with
  | zero =>
    intro s s' r h
    simp [find] at h
  | succ m ih =>
    intro s s' r h
    rcases ha : it.advance m s with _ | st
    · simp [find, ha] at h
    · cases st with
      | err s1 e =>
        simp [find, ha] at h
      | ok s1 =>
        rcases hg : it.get s1 with _ | v
        · simp [find, ha, hg] at h
          simp_all
        · cases hf : f v with
          | true =>
            simp [find, ha, hg, hf] at h
            simp_all
          | false =>
            simp [find, ha, hg, hf] at h
            exact ih s1 s' r h

/-- Over a pure list-backed source, find returns the first element satisfying
the predicate (or nothing), and that value is the final current element. -/
theorem find_list_pure (α ε : Type) (f : α → Bool) :
    ∀ (fuel : Nat) (l : List α) (c : Option α), l.length < fuel →
      ∃ s', find (listSource α ε) f fuel ⟨l.map Except.ok, c⟩ =
          some (s', Except.ok (l.find? f)) ∧
        (listSource α ε).get s' = l.find? f := by
  intro fuel
  induction fuel with
  | zero =>
    intro l c h
    omega
  | succ m ih =>
    intro l c h
    cases l with
    | nil =>
      exact ⟨⟨[], none⟩, by simp [find, listSource, ListState.step], rfl⟩
    | cons a l2 =>
      cases hf : f a with
      | true =>
        refine ⟨⟨l2.map Except.ok, some a⟩, ?_, ?_⟩
        · simp [find, listSource, ListState.step, hf, List.find?]
        · simp [listSource, List.find?, hf]
      | false =>
        have h2 : l2.length < m := by
          simp [List.length_cons] at h
          omega
        obtain ⟨s', hs, hg⟩ := ih l2 (some a) h2
        refine ⟨s', ?_, ?_⟩
        · simp [find, listSource, ListState.step, hf, List.find?]
          simpa [listSource] using hs
        · simp [List.find?, hf, hg]

/-- Over a pure list-backed source, all computes the conjunction of the
predicate over the list. -/
theorem all_list_pure (α ε : Type) (f : α → Bool) :
    ∀ (fuel : Nat) (l : List α) (c : Option α), l.length < fuel →
      ∃ s', all (listSource α ε) f fuel ⟨l.map Except.ok, c⟩ =
          some (s', Except.ok (l.all f)) := by
  intro fuel
  induction fuel with
  | zero =>
    intro l c h
    omega
  | succ m ih =>
    intro l c h
    cases l with
    | nil =>
      exact ⟨⟨[], none⟩, by simp [all, next, listSource, ListState.step]⟩
    | cons a l2 =>
      cases hf : f a with
      | false =>
        refine ⟨⟨l2.map Except.ok, some a⟩, ?_⟩
        simp [all, next, listSource, ListState.step, hf, List.all_cons]
      | true =>
        have h2 : l2.length < m := by
          simp [List.length_cons] at h
          omega
        obtain ⟨s', hs⟩ := ih l2 (some a) h2
        refine ⟨s', ?_⟩
        simp [all, next, listSource, ListState.step, hf, List.all_cons]
        simpa [listSource] using hs

/-- Boolean bridge: negating all of the negated predicate is any. -/
theorem not_all_not_eq_any (α : Type) (f : α → Bool) (l : List α) :
    (!(l.all fun e => !f e)) = l.any f := by
  induction l with
  | nil => simp
  | cons a l2 ih =>
    cases hf : f a <;> simp [List.all_cons, List.any_cons, hf, ih]

/-- Claim C6: find advances repeatedly until the current element satisfies the
predicate or the iterator is exhausted, returns the element re-fetched via
get after the loop (the match, or nothing at exhaustion), and propagates an
advance error immediately. -/
theorem find_advances_until_match :
    (∀ (σ α ε : Type) (it : FallibleStreamingIterator σ α ε) (f : α → Bool)
        (fuel : Nat) (s s' : σ) (r : Option α),
      find it f fuel s = some (s', Except.ok r) → r = it.get s') ∧
    (∀ (α ε : Type) (f : α → Bool) (fuel : Nat) (l : List α) (c : Option α),
      l.length < fuel →
      ∃ s', find (listSource α ε) f fuel ⟨l.map Except.ok, c⟩ =
          some (s', Except.ok (l.find? f)) ∧
        (listSource α ε).get s' = l.find? f) ∧
    (∀ (α ε : Type) (f : α → Bool) (fuel : Nat) (e : ε)
        (rest : List (Except ε α)) (c : Option α),
      find (listSource α ε) f (fuel + 1) ⟨Except.error e :: rest, c⟩ =
        some (⟨rest, c⟩, Except.error e)) :=
  ⟨fun σ α ε it f fuel s s' r h => find_returns_get σ α ε it f fuel s s' r h,
   fun α ε f fuel l c h => find_list_pure α ε f fuel l c h,
   fun _ _ _ _ _ _ _ => rfl⟩

/-- Concrete instance of C6: find locates 2 in [1,2,3] and the result is the
final state's current element. -/
theorem find_advances_until_match_witness :
    ((some 2 : Option Nat) = (listSource Nat Nat).get ⟨[Except.ok 3], some 2⟩) ∧
    (∃ s', find (listSource Nat Nat) (fun x => x == 2) 4 ⟨[1, 2, 3].map Except.ok, none⟩ =
        some (s', Except.ok (some 2)) ∧ (listSource Nat Nat).get s' = some 2) :=
  ⟨find_advances_until_match.1 (ListState Nat Nat) Nat Nat (listSource Nat Nat)
      (fun x => x == 2) 4 ⟨[Except.ok 1, Except.ok 2, Except.ok 3], none⟩
      ⟨[Except.ok 3], some 2⟩ (some 2) rfl,
   find_advances_until_match.2.1 Nat Nat (fun x => x == 2) 4 [1, 2, 3] none (by decide)⟩

/-- Claim C7: any is exactly the boolean negation of all applied to the negated
predicate, and over a pure list source it computes the list's any — true as
soon as some element satisfies the predicate. -/
theorem any_is_negated_all :
    (∀ (σ α ε : Type) (it : FallibleStreamingIterator σ α ε) (f : α → Bool)
        (fuel : Nat) (s : σ),
      any it f fuel s =
        (all it (fun e => !f e) fuel s).map
          (fun p => (p.1, p.2.map (fun r => !r)))) ∧
    (∀ (α ε : Type) (f : α → Bool) (fuel : Nat) (l : List α) (c : Option α),
      l.length < fuel →
      ∃ s', any (listSource α ε) f fuel ⟨l.map Except.ok, c⟩ =
          some (s', Except.ok (l.any f))) := by
  refine ⟨fun σ α ε it f fuel s => rfl, ?_⟩
  intro α ε f fuel l c h
  obtain ⟨s', hs⟩ := all_list_pure α ε (fun e => !f e) fuel l c h
  refine ⟨s', ?_⟩
  simp [any, hs, Except.map, not_all_not_eq_any]

/-- Concrete instance of C7: any finds the even element in [1,2]. -/
theorem any_is_negated_all_witness :
    ∃ s', any (listSource Nat Nat) (fun x => x % 2 == 0) 3 ⟨[1, 2].map Except.ok, none⟩ =
        some (s', Except.ok true) :=
  any_is_negated_all.2 Nat Nat (fun x => x % 2 == 0) 3 [1, 2] none (by decide)

/-- Claim C5: on a source whose third advance errors, count, all and find stop
exactly at the erroring pull (the rest of the script is untouched) and
surface that error unchanged. -/
theorem error_short_circuit :
    ∀ (α ε : Type) (fuel : Nat) (a b : α) (e : ε) (rest : List (Except ε α))
      (c : Option α) (f g : α → Bool),
      count (listSource α ε) (fuel + 3)
          ⟨[Except.ok a, Except.ok b, Except.error e] ++ rest, c⟩ 0 =
        some (⟨rest, some b⟩, Except.error e) ∧
      (f a = true → f b = true →
        all (listSource α ε) f (fuel + 3)
            ⟨[Except.ok a, Except.ok b, Except.error e] ++ rest, c⟩ =
          some (⟨rest, some b⟩, Except.error e)) ∧
      (g a = false → g b = false →
        find (listSource α ε) g (fuel + 3)
            ⟨[Except.ok a, Except.ok b, Except.error e] ++ rest, c⟩ =
          some (⟨rest, some b⟩, Except.error e)) := by
  intro α ε fuel a b e rest c f g
  refine ⟨rfl, ?_, ?_⟩
  · intro hfa hfb
    simp only [show fuel + 3 = fuel + 2 + 1 from rfl, show fuel + 2 = fuel + 1 + 1 from rfl,
      show fuel + 1 = fuel + 0 + 1 from rfl]
    simp [all, next, listSource, ListState.step, hfa, hfb]
  · intro hga hgb
    simp only [show fuel + 3 = fuel + 2 + 1 from rfl, show fuel + 2 = fuel + 1 + 1 from rfl,
      show fuel + 1 = fuel + 0 + 1 from rfl]
    simp [find, listSource, ListState.step, hga, hgb]

/-- Concrete instance of C5 over the script [ok 1, ok 2, error 7]. -/
theorem error_short_circuit_witness :
    count (listSource Nat Nat) 3 ⟨[Except.ok 1, Except.ok 2, Except.error 7], none⟩ 0 =
      some (⟨[], some 2⟩, Except.error 7) ∧
    all (listSource Nat Nat) (fun _ => true) 3
        ⟨[Except.ok 1, Except.ok 2, Except.error 7], none⟩ =
      some (⟨[], some 2⟩, Except.error 7) ∧
    find (listSource Nat Nat) (fun _ => false) 3
        ⟨[Except.ok 1, Except.ok 2, Except.error 7], none⟩ =
      some (⟨[], some 2⟩, Except.error 7) := by
  have h := error_short_circuit Nat Nat 0 1 2 7 [] none (fun _ => true) (fun _ => false)
  exact ⟨h.1, h.2.1 rfl rfl, h.2.2 rfl rfl⟩

/-- Claim C1 evaluated at the failing input: driving the lazy chain
source.filter(p).map(f).take(1) over the one-element source [1] with an
always-true predicate and the identity transform yields the empty sequence
(the first next already returns no element, because Take's get returns
nothing while the done flag is unset), while the eager composition
take 1 (map f (filter p [1])) yields [1]. -/
theorem take_chain_eager_mismatch :
    drain (Take.iter (Map.iter (Filter.iter (listSource Nat Nat) (fun _ => true)) (fun x => x)))
        10 ⟨⟨⟨[Except.ok 1], none⟩, none⟩, 1, false⟩ = some ([], Except.ok ()) ∧
    (([1].filter (fun _ => true)).map (fun x => x)).take 1 = [1] ∧
    ([] : List Nat) ≠ [1] :=
  ⟨rfl, rfl, fun h => List.noConfusion h⟩

/-- With n = 0, Skip's advance runs the empty for-loop, re-zeroes n and calls
itself again, never terminating: it returns none at every fuel. -/
theorem skip_advance_n_zero (σ α ε : Type) (it : FallibleStreamingIterator σ α ε) :
    ∀ (fuel : Nat) (s : σ), Skip.advance it fuel ⟨s, 0⟩ = none := by
  intro fuel
  induction fuel with
  | zero =>
    intro s
    rfl
  | succ m ih =>
    intro s
    simp [Skip.advance, Skip.loop, ih]

/-- Claim C2 evaluated: skip(2) over [1,2,3] never finishes its first advance
(Skip's advance self-recurses forever once the skipping loop completes), so
it does not yield [3]; skip(5) over [1,2,3] drains to the empty sequence
without error; and take(0) over any fresh source answers its first next with
no element, success, and the source state untouched. -/
theorem skip_take_boundary :
    (∀ fuel : Nat,
      Skip.advance (listSource Nat Nat) fuel
        ⟨⟨[Except.ok 1, Except.ok 2, Except.ok 3], none⟩, 2⟩ = none) ∧
    drain (Skip.iter (listSource Nat Nat)) 10
        ⟨⟨[Except.ok 1, Except.ok 2, Except.ok 3], none⟩, 5⟩ =
      some ([], Except.ok ()) ∧
    (∀ (l : List Nat) (fuel : Nat),
      next (Take.iter (listSource Nat Nat)) fuel ⟨pureSource l, 0, false⟩ =
        some (⟨pureSource l, 0, true⟩, Except.ok none)) := by
  refine ⟨?_, rfl, ?_⟩
  · intro fuel
    cases fuel with
    | zero => rfl
    | succ m =>
      have hloop : Skip.loop (listSource Nat Nat) m 2
          ⟨[Except.ok 1, Except.ok 2, Except.ok 3], none⟩ =
          some (.through ⟨[Except.ok 3], some 2⟩) := rfl
      simp only [Skip.advance, hloop]
      exact skip_advance_n_zero _ _ _ (listSource Nat Nat) m _
  · intro l fuel
    rfl

end FallibleStreaming
